import Mathlib

/-!
# Verification of the minimal promise core in how-then-works/promise.js

This development shallowly embeds the roughly 40-line `Promise` implementation
of src/how-then-works/promise.js and proves properties of it.

The JavaScript source defines, inside the constructor `function Promise(executorFn)`:

* closure variables `state` (initially the string 'pending'), `value`
  (initially undefined) and `deferred` (initially null);
* a closure-local function `resolve(newValue)` that sets `value = newValue`,
  `state = 'resolved'` and, if `deferred` is set, calls `handle(deferred)`;
* a closure-local function `handle(handler)` that
  - stores `deferred = handler` and returns when `state === 'pending'`,
  - otherwise, when `handler.onResolved` is absent, synchronously calls
    `handler.resolve(value)`,
  - otherwise queues a microtask that computes `ret = handler.onResolved(value)`
    and calls `handler.resolve(ret)`;
* a method `this.then = function(onResolved)` that constructs a child promise
  whose executor builds `handler = { onResolved, resolve: childResolveMethod }`
  and evaluates `parent.handle(handler)`;
* finally the constructor runs `executorFn(resolve)` synchronously.

The embedding represents the heap of promise cells as a list indexed by
allocation order (a cell id is a natural number), a handler's `resolve` field
by the id of the child cell whose `resolve` closure it is, and the host
microtask queue as a FIFO list of pending tasks.  The mutually recursive
synchronous call chain `resolve` -> `handle` -> `handler.resolve` -> ... is
made total with an explicit fuel argument; theorems are stated for every
sufficiently large fuel, which coincides with the JavaScript behaviour since
every synchronous chain in any reachable configuration is finite.
-/

namespace HowThenWorks

/-- The `state` closure variable of a cell: the source uses the strings
'pending' and 'resolved'. -/
inductive CState
  | pending
  | resolved
deriving DecidableEq

/-- A handler record as built in `then`:
`{ onResolved: onResolved, resolve: childResolveMethod }`.
`onResolved` is optional (calling `then()` with no argument leaves it
undefined); the `resolve` field, a reference to the child cell's `resolve`
closure, is represented by the child cell's id. -/
structure Handler (α : Type) where
  onResolved : Option (α → α)
  resolve : Nat

/-- One promise cell: the closure variables `state`, `value`, `deferred` of one
run of the `Promise` constructor. -/
structure Cell (α : Type) where
  state : CState
  value : Option α
  deferred : Option (Handler α)

/-- A freshly constructed cell: `state = 'pending'`, `value` undefined,
`deferred = null`. -/
def Cell.fresh (α : Type) : Cell α := ⟨CState.pending, none, none⟩

/-- A queued microtask.  The closure
`() => { var ret = handler.onResolved(value); handler.resolve(ret); }`
captures the handler record (fields `onResolved` and `resolve`) and reads the
parent cell's `value` closure variable when it runs, so the task records the
parent cell id, the transformation, and the child cell id. -/
structure Task (α : Type) where
  parent : Nat
  onResolved : α → α
  child : Nat

/-- The machine state: the heap of promise cells in allocation order, plus the
host's FIFO microtask queue. -/
structure MState (α : Type) where
  cells : List (Cell α)
  tasks : List (Task α)

/-- Read a cell from the heap (out-of-range reads return a fresh cell; they
never occur in the runs we reason about). -/
def getCell (s : MState α) (c : Nat) : Cell α :=
  s.cells.getD c (Cell.fresh α)

/-- Write a cell back to the heap. -/
def setCell (s : MState α) (c : Nat) (x : Cell α) : MState α :=
  ⟨s.cells.set c x, s.tasks⟩

/-- Allocate a fresh cell (the field initialisations at the top of the
`Promise` constructor) and return its id. -/
def alloc (s : MState α) : Nat × MState α :=
  (s.cells.length, ⟨s.cells ++ [Cell.fresh α], s.tasks⟩)

/-- A synchronous call into the promise core: either a call of some cell's
`resolve` closure with a value, or a call of some cell's `handle` function
with a handler record. -/
inductive SCall (α : Type)
  | res (c : Nat) (v : α)
  | han (c : Nat) (h : Handler α)

/-- Execute one synchronous call, faithfully to the source:

`resolve(newValue)` sets `value = newValue` and `state = 'resolved'` (leaving
`deferred` untouched and unguarded by any state check) and then, if `deferred`
is set, calls `handle(deferred)`.

`handle(handler)` stores `deferred = handler` and returns if the cell is still
pending; otherwise, if `handler.onResolved` is absent it synchronously calls
`handler.resolve(value)` (the child's `resolve` closure), and if present it
appends to the microtask queue a task that will apply `onResolved` to the
cell's `value` and resolve the child with the result.

The fuel argument bounds the depth of the synchronous call chain; every chain
arising in the source is finite, and all theorems hold for all sufficiently
large fuel. -/
def exec : Nat → MState α → SCall α → MState α
  | 0, s, _ => s
  | fuel + 1, s, SCall.res c v =>
    let cell := getCell s c
    let s1 := setCell s c ⟨CState.resolved, some v, cell.deferred⟩
    match cell.deferred with
    | some h => exec fuel s1 (SCall.han c h)
    | none => s1
  | fuel + 1, s, SCall.han c h =>
    let cell := getCell s c
    if cell.state = CState.pending then
      setCell s c ⟨cell.state, cell.value, some h⟩
    else
      match h.onResolved with
      | some f => ⟨s.cells, s.tasks ++ [⟨c, f, h.resolve⟩]⟩
      | none =>
        match cell.value with
        | some v => exec fuel s (SCall.res h.resolve v)
        | none => s

/-- The `resolve` closure of cell `c`. -/
def resolve (fuel : Nat) (s : MState α) (c : Nat) (v : α) : MState α :=
  exec fuel s (SCall.res c v)

/-- The closure-local `handle` function of cell `c`. -/
def handle (fuel : Nat) (s : MState α) (c : Nat) (h : Handler α) : MState α :=
  exec fuel s (SCall.han c h)

/-- Run one queued microtask:
`var ret = handler.onResolved(value); handler.resolve(ret);` — the parent
cell's `value` variable is read at run time. -/
def runTask (fuel : Nat) (s : MState α) (t : Task α) : MState α :=
  match (getCell s t.parent).value with
  | some v => resolve fuel s t.child (t.onResolved v)
  | none => s

/-- The host's microtask drain loop: repeatedly dequeue the front task and run
it (tasks enqueued while running are appended behind the remaining ones, FIFO).
`n` bounds the number of tasks processed. -/
def drain : Nat → Nat → MState α → MState α
  | 0, _, s => s
  | n + 1, fuel, s =>
    match s.tasks with
    | [] => s
    | t :: rest => drain n fuel (runTask fuel ⟨s.cells, rest⟩ t)

/-- The observable behaviours of a producer (executor) function for the runs
the specification quantifies over: call the settlement callback immediately
with a value, store it for later without calling it, or throw synchronously
without calling it. -/
inductive ExecAct (α : Type)
  | resolveNow (v : α)
  | store
  | throwErr

/-- A JavaScript exception escaping the core: the TypeError from calling the
undefined `parent.handle`, or an exception thrown by a producer. -/
inductive JSError
  | typeError
  | executorThrow
deriving DecidableEq

/-- `new Promise(executorFn)`: allocate a fresh cell (the constructor's field
initialisations), then run the executor synchronously with the cell's
`resolve` closure.  A throwing executor propagates its exception to the
constructor's caller; the heap mutations made so far (the allocation) persist,
as JavaScript exceptions do not roll back heap state. -/
def newPromise (fuel : Nat) (s : MState α) (act : ExecAct α) :
    Except JSError Nat × MState α :=
  let a := alloc s
  match act with
  | ExecAct.resolveNow v => (Except.ok a.1, resolve fuel a.2 a.1 v)
  | ExecAct.store => (Except.ok a.1, a.2)
  | ExecAct.throwErr => (Except.error JSError.executorThrow, a.2)

/-- The own properties assigned on a `Promise` instance.  In the constructor
body the only assignment to a property of `this` is `this.then = function...`;
in particular the closure-local functions `resolve` and `handle` are never
assigned as properties, and nothing is added to `Promise.prototype` anywhere
in the file. -/
inductive PropName
  | thenProp
  | handleProp
deriving DecidableEq

/-- The list of property names assigned on every `Promise` instance, read off
from the constructor body of promise.js. -/
def promiseOwnProps : List PropName := [PropName.thenProp]

/-- `then(onResolved)` exactly as written in the source: construct the child
promise, whose executor builds the handler record and then evaluates
`parent.handle(handler)`.  The property lookup `parent.handle` is modelled by
membership of the `handle` name in the instance's own properties: when absent
the lookup yields undefined and the call raises a TypeError, which propagates
out of the child's constructor and out of `then`; the child allocation (a heap
effect of `new Promise`) persists, but no handler is registered and no child
id is returned. -/
def thenLiteral (fuel : Nat) (s : MState α) (parent : Nat)
    (onResolved : Option (α → α)) : Except JSError Nat × MState α :=
  let a := alloc s
  if PropName.handleProp ∈ promiseOwnProps then
    (Except.ok a.1, handle fuel a.2 parent ⟨onResolved, a.1⟩)
  else
    (Except.error JSError.typeError, a.2)

/-- `then(onResolved)` with the call `parent.handle(handler)` resolved to the
enclosing closure-local `handle` function, as the repository's README
walkthrough describes the code behaving (the literal property lookup instead
raises a TypeError, see `thenLiteral`): allocate the child cell, build the
handler record `{ onResolved, resolve: childResolveMethod }`, attach it to the
parent via `handle`, and return the child. -/
def thenOp (fuel : Nat) (s : MState α) (parent : Nat)
    (onResolved : Option (α → α)) : Nat × MState α :=
  let a := alloc s
  (a.1, handle fuel a.2 parent ⟨onResolved, a.1⟩)

/-- The empty machine: no cells, empty microtask queue. -/
def initState (α : Type) : MState α := ⟨[], []⟩

/-! ## Heap lemmas -/

lemma tasks_setCell (s : MState α) (c : Nat) (x : Cell α) :
    (setCell s c x).tasks = s.tasks := rfl

lemma length_setCell (s : MState α) (c : Nat) (x : Cell α) :
    (setCell s c x).cells.length = s.cells.length := by
  simp [setCell]

lemma getCell_setCell_self (s : MState α) (c : Nat) (x : Cell α)
    (hc : c < s.cells.length) : getCell (setCell s c x) c = x := by
  simp [getCell, setCell, List.getD_eq_getElem, hc, List.getElem_set_self]

lemma getCell_setCell_ne (s : MState α) (c j : Nat) (x : Cell α)
    (hj : j ≠ c) : getCell (setCell s c x) j = getCell s j := by
  simp only [getCell, setCell, List.getD_eq_getD_get?, List.get?_eq_getElem?]
  rw [List.getElem?_set_ne (Ne.symm hj)]

lemma getCell_mkTasks (cells : List (Cell α)) (t t' : List (Task α)) (j : Nat) :
    getCell (⟨cells, t⟩ : MState α) j = getCell (⟨cells, t'⟩ : MState α) j := rfl

lemma getCell_alloc_new (s : MState α) :
    getCell (alloc s).2 s.cells.length = Cell.fresh α := by
  simp [getCell, alloc, List.getD_append_right]

lemma getCell_alloc_old (s : MState α) (j : Nat) (hj : j < s.cells.length) :
    getCell (alloc s).2 j = getCell s j :=
  List.getD_append _ _ _ _ hj

/-! ## Branch lemmas for the two closure-local routines -/

/-- When the cell has no stored handler, `resolve(v)` just records the value
and the resolved state. -/
lemma resolve_no_deferred (fuel : Nat) (s : MState α) (c : Nat) (v : α)
    (hd : (getCell s c).deferred = none) :
    resolve (fuel + 1) s c v = setCell s c ⟨CState.resolved, some v, none⟩ := by
  simp only [resolve, exec, hd]

/-- When the cell has a stored handler, `resolve(v)` records the value and the
resolved state and then calls `handle(deferred)` on the updated cell. -/
lemma resolve_with_deferred (fuel : Nat) (s : MState α) (c : Nat) (v : α) (h : Handler α)
    (hd : (getCell s c).deferred = some h) :
    resolve (fuel + 1) s c v
      = handle fuel (setCell s c ⟨CState.resolved, some v, some h⟩) c h := by
  simp only [resolve, handle, exec, hd]

/-- On a still-pending cell, `handle` only stores the handler in `deferred`. -/
lemma handle_pending (fuel : Nat) (s : MState α) (c : Nat) (h : Handler α)
    (hc : (getCell s c).state = CState.pending) :
    handle (fuel + 1) s c h
      = setCell s c ⟨(getCell s c).state, (getCell s c).value, some h⟩ := by
  simp only [handle, exec, hc]
  simp

/-- On an already-resolved cell with a transformation callback present,
`handle` queues a microtask and touches nothing else. -/
lemma handle_resolved_transform (fuel : Nat) (s : MState α) (c : Nat) (f : α → α)
    (child : Nat) (hc : (getCell s c).state = CState.resolved) :
    handle (fuel + 1) s c ⟨some f, child⟩ = ⟨s.cells, s.tasks ++ [⟨c, f, child⟩]⟩ := by
  simp only [handle, exec, hc]
  simp

/-- On an already-resolved cell with the transformation callback absent,
`handle` synchronously calls the child's `resolve` with the cell's value. -/
lemma handle_resolved_passthrough (fuel : Nat) (s : MState α) (c : Nat) (child : Nat)
    (v : α) (hc : (getCell s c).state = CState.resolved)
    (hv : (getCell s c).value = some v) :
    handle (fuel + 1) s c ⟨none, child⟩ = resolve fuel s child v := by
  simp only [handle, resolve, exec, hc, hv]
  simp

/-! ## Claims -/

/-- C1: the claim says chaining with a transformation callback f on a cell that
settles to v produces a child cell that eventually settles to f(v).  The code
as written cannot do this: evaluated at the concrete input of a parent settled
to 10 and f multiplying by 2, the then call raises a TypeError (the property
lookup parent.handle yields undefined), and the child cell allocated inside
the then call stays PENDING with no value even after the microtask queue is
drained — it never settles to f(10) = 20 and f is never invoked. -/
theorem chained_transformation_broken_by_typeerror :
    (thenLiteral 3 (newPromise 2 (initState Int) (ExecAct.resolveNow 10)).2 0
        (some (fun x => x * 2))).1 = Except.error JSError.typeError ∧
    getCell (drain 4 3 (thenLiteral 3 (newPromise 2 (initState Int) (ExecAct.resolveNow 10)).2 0
        (some (fun x => x * 2))).2) 1 = ⟨CState.pending, none, none⟩ :=
  ⟨rfl, rfl⟩

/-- C2 counterexample: the claim says that for a cell with a stored pending
handler, with or without a transformation callback, the resolve call that sets
state = RESOLVED never itself synchronously settles the child, delivery always
happening in a later microtask turn.  Concretely: cell 0 is pending with a
stored passthrough handler (no transformation callback) wired to child cell 1;
the call resolve(7) on cell 0 settles cell 1 to the value 7 synchronously,
within that same call, and the microtask queue is empty before and after — no
microtask turn is ever involved. -/
theorem stored_passthrough_settles_child_synchronously :
    getCell (resolve 3 (thenOp 2 (newPromise 2 (initState Int) ExecAct.store).2 0 none).2 0 7) 1
      = ⟨CState.resolved, some 7, none⟩ ∧
    (resolve 3 (thenOp 2 (newPromise 2 (initState Int) ExecAct.store).2 0 none).2 0 7).tasks
      = [] ∧
    (thenOp 2 (newPromise 2 (initState Int) ExecAct.store).2 0 none).2.tasks = [] :=
  ⟨rfl, rfl, rfl⟩

/-- C2 (amended): for every cell that is pending with a stored handler whose
transformation callback is PRESENT, the resolve call that sets
state = RESOLVED does not invoke the transformation and does not settle the
child synchronously: its entire effect is to update the resolving cell itself
and to append one microtask to the queue (every other cell, in particular the
handler's child, is untouched); delivery happens only when that microtask
later runs.  (A stored passthrough handler is instead delivered synchronously,
see the counterexample.) -/
theorem resolve_defers_stored_transform (α : Type) (fuel : Nat) (s : MState α)
    (c child : Nat) (w : Option α) (f : α → α) (v : α)
    (hc : c < s.cells.length)
    (hcell : getCell s c = ⟨CState.pending, w, some ⟨some f, child⟩⟩) :
    resolve (fuel + 2) s c v
      = ⟨s.cells.set c ⟨CState.resolved, some v, some ⟨some f, child⟩⟩,
         s.tasks ++ [⟨c, f, child⟩]⟩ ∧
    (∀ j, j ≠ c → getCell (resolve (fuel + 2) s c v) j = getCell s j) := by
  have hstep : resolve (fuel + 2) s c v
      = ⟨s.cells.set c ⟨CState.resolved, some v, some ⟨some f, child⟩⟩,
         s.tasks ++ [⟨c, f, child⟩]⟩ := by
    simp only [resolve, exec, hcell]
    have h2 : getCell (setCell s c ⟨CState.resolved, some v, some ⟨some f, child⟩⟩) c
        = ⟨CState.resolved, some v, some ⟨some f, child⟩⟩ :=
      getCell_setCell_self _ _ _ hc
    rw [h2]
    simp [setCell]
  refine ⟨hstep, ?_⟩
  intro j hj
  rw [hstep]
  show getCell (setCell s c ⟨CState.resolved, some v, some ⟨some f, child⟩⟩) j = getCell s j
  exact getCell_setCell_ne _ _ _ _ hj

/-- C2 witness: instantiating the amended theorem at a concrete pending cell 0
holding a stored handler with transformation x + 1 wired to child cell 1, and
resolving with 5: the cell records value 5 and state resolved, one microtask
is queued, and the child is untouched. -/
theorem resolve_defers_stored_transform_check :
    resolve (0 + 2) (⟨[⟨CState.pending, none, some ⟨some (fun x : Int => x + 1), 1⟩⟩,
        ⟨CState.pending, none, none⟩], []⟩ : MState Int) 0 5
      = ⟨[⟨CState.resolved, some 5, some ⟨some (fun x : Int => x + 1), 1⟩⟩,
          ⟨CState.pending, none, none⟩], [⟨0, fun x : Int => x + 1, 1⟩]⟩ :=
  ((resolve_defers_stored_transform Int 0
    (⟨[⟨CState.pending, none, some ⟨some (fun x : Int => x + 1), 1⟩⟩,
      ⟨CState.pending, none, none⟩], []⟩ : MState Int) 0 1 none (fun x : Int => x + 1) 5
    (by decide) rfl).1).trans (by rfl)

/-- C3: for every machine state, parent cell and argument, the then call as
literally written always returns the TypeError from evaluating the undefined
property parent.handle, and its only heap effect is the child allocation made
by the nested constructor before the throw: no handler is registered on the
parent (no cell is modified) and no child is returned to the caller. -/
theorem then_always_raises_typeerror (α : Type) (fuel : Nat) (s : MState α) (parent : Nat)
    (onResolved : Option (α → α)) :
    thenLiteral fuel s parent onResolved = (Except.error JSError.typeError, (alloc s).2) := by
  rfl

/-- C4: the claim says then(f) returns without having invoked f and that, for
a parent already settled at attach time, f has run by the next microtask-drain
point.  Evaluated at the concrete input of a parent settled to 7 and f adding
1: the then call raises a TypeError instead of returning, no microtask is
scheduled, and after draining the queue the allocated child cell is still
PENDING with no value — f never runs at all. -/
theorem then_after_settle_broken_by_typeerror :
    (thenLiteral 3 (newPromise 2 (initState Int) (ExecAct.resolveNow 7)).2 0
        (some (fun x => x + 1))).1 = Except.error JSError.typeError ∧
    (thenLiteral 3 (newPromise 2 (initState Int) (ExecAct.resolveNow 7)).2 0
        (some (fun x => x + 1))).2.tasks = [] ∧
    getCell (drain 4 3 (thenLiteral 3 (newPromise 2 (initState Int) (ExecAct.resolveNow 7)).2 0
        (some (fun x => x + 1))).2) 1 = ⟨CState.pending, none, none⟩ :=
  ⟨rfl, rfl, rfl⟩

/-- C5: the claim says chaining with no transformation callback on a cell
settled to v produces a child that settles to exactly v, synchronously when
the parent is already settled at attach time.  Evaluated at the concrete input
of a parent settled to 10 and a then call with the callback absent: the call
raises a TypeError and the allocated child cell is left PENDING with no value
— no passthrough settlement, synchronous or otherwise, ever happens. -/
theorem passthrough_broken_by_typeerror :
    (thenLiteral 3 (newPromise 2 (initState Int) (ExecAct.resolveNow 10)).2 0 none).1
      = Except.error JSError.typeError ∧
    getCell (thenLiteral 3 (newPromise 2 (initState Int) (ExecAct.resolveNow 10)).2 0 none).2 1
      = ⟨CState.pending, none, none⟩ :=
  ⟨rfl, rfl⟩

/-- C6 counterexample: the claim says the child cell returned by then is
PENDING at the moment then returns, for every parent and every argument.  With
the attach reaching the handle routine (the wiring the README describes;
literally the call raises a TypeError first, see C3): on a parent already
settled to 10 and a then call with the callback absent, the passthrough branch
of handle settles the child synchronously inside the then call, so the child
is already RESOLVED, not PENDING, at the moment then returns. -/
theorem child_already_resolved_at_return :
    (getCell (thenOp 3 (newPromise 2 (initState Int) (ExecAct.resolveNow 10)).2 0 none).2
        (thenOp 3 (newPromise 2 (initState Int) (ExecAct.resolveNow 10)).2 0 none).1).state
      = CState.resolved ∧
    ¬ (getCell (thenOp 3 (newPromise 2 (initState Int) (ExecAct.resolveNow 10)).2 0 none).2
        (thenOp 3 (newPromise 2 (initState Int) (ExecAct.resolveNow 10)).2 0 none).1).state
      = CState.pending :=
  ⟨rfl, by decide⟩

/-- C6 (amended): with then's attach reaching the handle routine, the child
returned by then is PENDING at return whenever the parent is still pending,
and also whenever a transformation callback is supplied; but when the parent
is already settled and the callback is absent, the child has already been
settled, synchronously, to the parent's value by the time then returns. -/
theorem child_state_at_then_return (α : Type) (fuel : Nat) (s : MState α) (p : Nat)
    (f? : Option (α → α)) (hp : p < s.cells.length) :
    ((getCell s p).state = CState.pending →
      getCell (thenOp (fuel + 2) s p f?).2 (thenOp (fuel + 2) s p f?).1
        = ⟨CState.pending, none, none⟩) ∧
    (∀ f, f? = some f →
      getCell (thenOp (fuel + 2) s p f?).2 (thenOp (fuel + 2) s p f?).1
        = ⟨CState.pending, none, none⟩) ∧
    (∀ v, f? = none → (getCell s p).state = CState.resolved →
      (getCell s p).value = some v →
      getCell (thenOp (fuel + 2) s p f?).2 (thenOp (fuel + 2) s p f?).1
        = ⟨CState.resolved, some v, none⟩) := by
  have hlen : s.cells.length ≠ p := Ne.symm (Nat.ne_of_lt hp)
  have ha : getCell (alloc s).2 p = getCell s p := getCell_alloc_old s p hp
  have hanew : getCell (alloc s).2 s.cells.length = Cell.fresh α := getCell_alloc_new s
  have hfst : (thenOp (fuel + 2) s p f?).1 = s.cells.length := rfl
  have hsnd : (thenOp (fuel + 2) s p f?).2
      = handle (fuel + 2) (alloc s).2 p ⟨f?, s.cells.length⟩ := rfl
  refine ⟨?_, ?_, ?_⟩
  · intro hpend
    rw [hfst, hsnd, handle_pending _ _ _ _ (by rw [ha]; exact hpend),
      getCell_setCell_ne _ _ _ _ hlen, hanew]
    rfl
  · intro f hf
    subst hf
    rcases hstate : (getCell s p).state with _ | _
    · rw [hfst, hsnd, handle_pending _ _ _ _ (by rw [ha]; exact hstate),
        getCell_setCell_ne _ _ _ _ hlen, hanew]
      rfl
    · rw [hfst, hsnd, handle_resolved_transform _ _ _ _ _ (by rw [ha]; exact hstate)]
      show getCell (⟨(alloc s).2.cells, _⟩ : MState α) s.cells.length = _
      rw [getCell_mkTasks _ _ (alloc s).2.tasks, hanew]
      rfl
  · intro v hf hstate hval
    subst hf
    rw [hfst, hsnd, handle_resolved_passthrough (fuel + 1) _ _ _ v
      (by rw [ha]; exact hstate) (by rw [ha]; exact hval),
      resolve_no_deferred _ _ _ _ (by rw [hanew]; rfl),
      getCell_setCell_self]
    have : (alloc s).2.cells.length = s.cells.length + 1 := by
      simp [alloc]
    rw [this]
    exact Nat.lt_succ_self _

/-- C6 witness: instantiating the amended theorem at a concrete parent settled
to 10 and a then call with the callback absent: the child is already resolved
to 10 when then returns. -/
theorem child_state_at_then_return_check :
    getCell (thenOp (0 + 2) (⟨[⟨CState.resolved, some 10, none⟩], []⟩ : MState Int) 0 none).2
        (thenOp (0 + 2) (⟨[⟨CState.resolved, some 10, none⟩], []⟩ : MState Int) 0 none).1
      = ⟨CState.resolved, some 10, none⟩ :=
  (child_state_at_then_return Int 0 (⟨[⟨CState.resolved, some 10, none⟩], []⟩ : MState Int)
    0 none (by decide)).2.2 10 rfl rfl rfl

/-- C7: for every value v, calling the settlement callback once with v on a
fresh cell (pending, no value, no stored handler) leaves the cell with
state = RESOLVED and recorded value v (and, the handler slot being empty,
schedules nothing). -/
theorem resolve_on_fresh_cell (α : Type) (fuel : Nat) (s : MState α) (c : Nat) (v : α)
    (hc : c < s.cells.length)
    (hcell : getCell s c = ⟨CState.pending, none, none⟩) :
    getCell (resolve (fuel + 1) s c v) c = ⟨CState.resolved, some v, none⟩ ∧
    (resolve (fuel + 1) s c v).tasks = s.tasks := by
  simp only [resolve, exec, hcell]
  exact ⟨getCell_setCell_self _ _ _ hc, rfl⟩

/-- C7 witness: resolving a concrete fresh cell with 42 yields state resolved
and value 42. -/
theorem resolve_on_fresh_cell_check :
    getCell (resolve (0 + 1) (⟨[⟨CState.pending, none, none⟩], []⟩ : MState Int) 0 42) 0
      = ⟨CState.resolved, some 42, none⟩ :=
  (resolve_on_fresh_cell Int 0 (⟨[⟨CState.pending, none, none⟩], []⟩ : MState Int) 0 42
    (by decide) rfl).1

/-- C8: constructing a promise with a producer that throws synchronously
without first calling the settlement callback propagates the exception to the
constructor's caller, and the newly allocated cell is left PENDING with no
value and no handler — no conversion to any resolved or rejected state. -/
theorem producer_throw_leaves_cell_pending (α : Type) (fuel : Nat) (s : MState α) :
    newPromise fuel s (ExecAct.throwErr : ExecAct α)
      = (Except.error JSError.executorThrow, (alloc s).2) ∧
    getCell (alloc s).2 s.cells.length = ⟨CState.pending, none, none⟩ := by
  exact ⟨rfl, getCell_alloc_new s⟩

/-- C9: for a pending cell that already has a stored handler h1, attaching a
second handler (attach is the handle routine, the wiring then's executor
performs; the literal then call instead raises a TypeError, see C3) overwrites
the first registration: after the second attach the stored handler is the
second one; upon settlement followed by a microtask drain, only the second
handler's child is settled (to f2 v), every other cell — in particular the
first handler's child — is untouched, and no queued work remains, so the first
child is never settled. -/
theorem second_attach_overwrites_first (α : Type) (fuel n : Nat) (s : MState α)
    (p c2 : Nat) (w : Option α) (h1 : Handler α) (f2 : α → α) (v : α)
    (s2 s3 s4 : MState α)
    (hp : p < s.cells.length) (hc2 : c2 < s.cells.length) (hne : c2 ≠ p)
    (hcellp : getCell s p = ⟨CState.pending, w, some h1⟩)
    (hcellc2 : getCell s c2 = ⟨CState.pending, none, none⟩)
    (htasks : s.tasks = [])
    (hs2 : s2 = handle (fuel + 1) s p ⟨some f2, c2⟩)
    (hs3 : s3 = resolve (fuel + 2) s2 p v)
    (hs4 : s4 = drain (n + 2) (fuel + 1) s3) :
    getCell s2 p = ⟨CState.pending, w, some ⟨some f2, c2⟩⟩ ∧
    getCell s4 c2 = ⟨CState.resolved, some (f2 v), none⟩ ∧
    (∀ j, j ≠ p → j ≠ c2 → getCell s4 j = getCell s j) ∧
    s4.tasks = [] := by
  have hs2' : s2 = setCell s p ⟨CState.pending, w, some ⟨some f2, c2⟩⟩ := by
    rw [hs2, handle_pending _ _ _ _ (by rw [hcellp]), hcellp]
  have hget2p : getCell s2 p = ⟨CState.pending, w, some ⟨some f2, c2⟩⟩ := by
    rw [hs2']; exact getCell_setCell_self _ _ _ hp
  have hget2c2 : getCell s2 c2 = ⟨CState.pending, none, none⟩ := by
    rw [hs2', getCell_setCell_ne _ _ _ _ hne]; exact hcellc2
  have hlen2 : s2.cells.length = s.cells.length := by
    rw [hs2']; exact length_setCell _ _ _
  have htasks2 : s2.tasks = [] := by
    rw [hs2', tasks_setCell]; exact htasks
  have hsA : resolve (fuel + 2) s2 p v
      = handle (fuel + 1) (setCell s2 p ⟨CState.resolved, some v, some ⟨some f2, c2⟩⟩)
          p ⟨some f2, c2⟩ := by
    exact resolve_with_deferred _ _ _ _ _ (by rw [hget2p])
  have hgetAp : getCell (setCell s2 p ⟨CState.resolved, some v, some ⟨some f2, c2⟩⟩) p
      = ⟨CState.resolved, some v, some ⟨some f2, c2⟩⟩ := by
    refine getCell_setCell_self _ _ _ ?_
    rw [hlen2]; exact hp
  have hs3' : s3 = ⟨(setCell s2 p ⟨CState.resolved, some v, some ⟨some f2, c2⟩⟩).cells,
      [⟨p, f2, c2⟩]⟩ := by
    rw [hs3, hsA, handle_resolved_transform _ _ _ _ _ (by rw [hgetAp]),
      tasks_setCell, htasks2]
    rfl
  have hrun : runTask (fuel + 1)
      (⟨(setCell s2 p ⟨CState.resolved, some v, some ⟨some f2, c2⟩⟩).cells, []⟩ : MState α)
      ⟨p, f2, c2⟩
      = setCell (⟨(setCell s2 p ⟨CState.resolved, some v, some ⟨some f2, c2⟩⟩).cells, []⟩ : MState α)
          c2 ⟨CState.resolved, some (f2 v), none⟩ := by
    have hvp : (getCell (⟨(setCell s2 p ⟨CState.resolved, some v, some ⟨some f2, c2⟩⟩).cells,
        ([] : List (Task α))⟩ : MState α) p).value = some v := by
      rw [getCell_mkTasks _ _ (setCell s2 p ⟨CState.resolved, some v, some ⟨some f2, c2⟩⟩).tasks]
      rw [hgetAp]
    have hdc2 : (getCell (⟨(setCell s2 p ⟨CState.resolved, some v, some ⟨some f2, c2⟩⟩).cells,
        ([] : List (Task α))⟩ : MState α) c2).deferred = none := by
      rw [getCell_mkTasks _ _ (setCell s2 p ⟨CState.resolved, some v, some ⟨some f2, c2⟩⟩).tasks,
        getCell_setCell_ne _ _ _ _ hne, hget2c2]
    simp only [runTask, hvp]
    exact resolve_no_deferred _ _ _ _ hdc2
  have hs4' : s4 = setCell
      (⟨(setCell s2 p ⟨CState.resolved, some v, some ⟨some f2, c2⟩⟩).cells, []⟩ : MState α)
      c2 ⟨CState.resolved, some (f2 v), none⟩ := by
    rw [hs4, hs3']
    show drain (n + 1 + 1) (fuel + 1) _ = _
    rw [drain]
    simp only [hrun]
    rw [drain]
    rw [show (setCell (⟨(setCell s2 p ⟨CState.resolved, some v, some ⟨some f2, c2⟩⟩).cells,
      ([] : List (Task α))⟩ : MState α) c2 ⟨CState.resolved, some (f2 v), none⟩).tasks
      = [] from rfl]
  refine ⟨hget2p, ?_, ?_, ?_⟩
  · rw [hs4']
    refine getCell_setCell_self _ _ _ ?_
    show c2 < (setCell s2 p _).cells.length
    rw [length_setCell, hlen2]
    exact hc2
  · intro j hjp hjc2
    rw [hs4', getCell_setCell_ne _ _ _ _ hjc2,
      getCell_mkTasks _ _ (setCell s2 p ⟨CState.resolved, some v, some ⟨some f2, c2⟩⟩).tasks,
      getCell_setCell_ne _ _ _ _ hjp, hs2', getCell_setCell_ne _ _ _ _ hjp]
  · rw [hs4', tasks_setCell]

/-- C9 witness: cell 0 is pending and already stores a handler with
transformation x + 1 wired to child cell 1; attaching a second handler with
transformation x * 2 wired to child cell 2 overwrites it, and after resolving
with 5 and draining, cell 2 is resolved to 10 while cell 1 is still the fresh
pending cell. -/
theorem second_attach_overwrites_first_check :
    getCell (drain (0 + 2) (0 + 1) (resolve (0 + 2)
        (handle (0 + 1) (⟨[⟨CState.pending, none, some ⟨some (fun x : Int => x + 1), 1⟩⟩,
          ⟨CState.pending, none, none⟩, ⟨CState.pending, none, none⟩], []⟩ : MState Int)
          0 ⟨some (fun x : Int => x * 2), 2⟩) 0 5)) 2
      = ⟨CState.resolved, some 10, none⟩ ∧
    getCell (drain (0 + 2) (0 + 1) (resolve (0 + 2)
        (handle (0 + 1) (⟨[⟨CState.pending, none, some ⟨some (fun x : Int => x + 1), 1⟩⟩,
          ⟨CState.pending, none, none⟩, ⟨CState.pending, none, none⟩], []⟩ : MState Int)
          0 ⟨some (fun x : Int => x * 2), 2⟩) 0 5)) 1
      = ⟨CState.pending, none, none⟩ := by
  have h := second_attach_overwrites_first Int 0 0
    (⟨[⟨CState.pending, none, some ⟨some (fun x : Int => x + 1), 1⟩⟩,
      ⟨CState.pending, none, none⟩, ⟨CState.pending, none, none⟩], []⟩ : MState Int)
    0 2 none ⟨some (fun x : Int => x + 1), 1⟩ (fun x : Int => x * 2) 5 _ _ _
    (by decide) (by decide) (by decide) rfl rfl rfl rfl rfl rfl
  exact ⟨h.2.1, (h.2.2.1 1 (by decide) (by decide)).trans rfl⟩

/-- C10: a second call to the settlement callback on a cell whose handler was
already delivered is not a no-op: with cell p resolved holding value v and its
(never cleared) stored handler with transformation f wired to child c, and c
already settled to f v, calling resolve with a new value v2 overwrites the
recorded value with v2, leaves state RESOLVED, and re-runs handler delivery:
a fresh microtask is queued with the same handler, and draining it re-invokes
the transformation on v2 and settles the child again, to f v2. -/
theorem resolve_again_redelivers (α : Type) (fuel n : Nat) (s : MState α)
    (p c : Nat) (f : α → α) (v v2 : α) (t1 t2 : MState α)
    (hp : p < s.cells.length) (hc : c < s.cells.length) (hne : c ≠ p)
    (hcellp : getCell s p = ⟨CState.resolved, some v, some ⟨some f, c⟩⟩)
    (hcellc : getCell s c = ⟨CState.resolved, some (f v), none⟩)
    (htasks : s.tasks = [])
    (ht1 : t1 = resolve (fuel + 2) s p v2)
    (ht2 : t2 = drain (n + 2) (fuel + 1) t1) :
    getCell t1 p = ⟨CState.resolved, some v2, some ⟨some f, c⟩⟩ ∧
    t1.tasks = [⟨p, f, c⟩] ∧
    getCell t2 c = ⟨CState.resolved, some (f v2), none⟩ ∧
    t2.tasks = [] := by
  have hgetAp : getCell (setCell s p ⟨CState.resolved, some v2, some ⟨some f, c⟩⟩) p
      = ⟨CState.resolved, some v2, some ⟨some f, c⟩⟩ :=
    getCell_setCell_self _ _ _ hp
  have ht1' : t1 = ⟨(setCell s p ⟨CState.resolved, some v2, some ⟨some f, c⟩⟩).cells,
      [⟨p, f, c⟩]⟩ := by
    rw [ht1, resolve_with_deferred _ _ _ _ _ (by rw [hcellp]),
      handle_resolved_transform _ _ _ _ _ (by rw [hgetAp]), tasks_setCell, htasks]
    rfl
  have hget1p : getCell t1 p = ⟨CState.resolved, some v2, some ⟨some f, c⟩⟩ := by
    rw [ht1', getCell_mkTasks _ _ (setCell s p ⟨CState.resolved, some v2, some ⟨some f, c⟩⟩).tasks]
    exact hgetAp
  have hrun : runTask (fuel + 1)
      (⟨(setCell s p ⟨CState.resolved, some v2, some ⟨some f, c⟩⟩).cells, []⟩ : MState α)
      ⟨p, f, c⟩
      = setCell (⟨(setCell s p ⟨CState.resolved, some v2, some ⟨some f, c⟩⟩).cells, []⟩ : MState α)
          c ⟨CState.resolved, some (f v2), none⟩ := by
    have hvp : (getCell (⟨(setCell s p ⟨CState.resolved, some v2, some ⟨some f, c⟩⟩).cells,
        ([] : List (Task α))⟩ : MState α) p).value = some v2 := by
      rw [getCell_mkTasks _ _ (setCell s p ⟨CState.resolved, some v2, some ⟨some f, c⟩⟩).tasks,
        hgetAp]
    have hdc : (getCell (⟨(setCell s p ⟨CState.resolved, some v2, some ⟨some f, c⟩⟩).cells,
        ([] : List (Task α))⟩ : MState α) c).deferred = none := by
      rw [getCell_mkTasks _ _ (setCell s p ⟨CState.resolved, some v2, some ⟨some f, c⟩⟩).tasks,
        getCell_setCell_ne _ _ _ _ hne, hcellc]
    simp only [runTask, hvp]
    exact resolve_no_deferred _ _ _ _ hdc
  have ht2' : t2 = setCell
      (⟨(setCell s p ⟨CState.resolved, some v2, some ⟨some f, c⟩⟩).cells, []⟩ : MState α)
      c ⟨CState.resolved, some (f v2), none⟩ := by
    rw [ht2, ht1']
    show drain (n + 1 + 1) (fuel + 1) _ = _
    rw [drain]
    simp only [hrun]
    rw [drain]
    rw [show (setCell (⟨(setCell s p ⟨CState.resolved, some v2, some ⟨some f, c⟩⟩).cells,
      ([] : List (Task α))⟩ : MState α) c ⟨CState.resolved, some (f v2), none⟩).tasks
      = [] from rfl]
  refine ⟨hget1p, by rw [ht1'], ?_, by rw [ht2', tasks_setCell]⟩
  rw [ht2']
  refine getCell_setCell_self _ _ _ ?_
  show c < (setCell s p _).cells.length
  rw [length_setCell]
  exact hc

/-- C10 witness: cell 0 is resolved to 3 with its stored handler (never
cleared after delivery) holding transformation x + 1 wired to child cell 1,
which already settled to 4; resolving cell 0 again with 9 queues a fresh
delivery, and draining settles the child again, to 10. -/
theorem resolve_again_redelivers_check :
    getCell (drain (0 + 2) (0 + 1) (resolve (0 + 2)
        (⟨[⟨CState.resolved, some 3, some ⟨some (fun x : Int => x + 1), 1⟩⟩,
          ⟨CState.resolved, some 4, none⟩], []⟩ : MState Int) 0 9)) 1
      = ⟨CState.resolved, some 10, none⟩ ∧
    (resolve (0 + 2)
        (⟨[⟨CState.resolved, some 3, some ⟨some (fun x : Int => x + 1), 1⟩⟩,
          ⟨CState.resolved, some 4, none⟩], []⟩ : MState Int) 0 9).tasks
      = [⟨0, fun x : Int => x + 1, 1⟩] := by
  have h := resolve_again_redelivers Int 0 0
    (⟨[⟨CState.resolved, some 3, some ⟨some (fun x : Int => x + 1), 1⟩⟩,
      ⟨CState.resolved, some 4, none⟩], []⟩ : MState Int)
    0 1 (fun x : Int => x + 1) 3 9 _ _
    (by decide) (by decide) (by decide) rfl rfl rfl rfl rfl
  exact ⟨h.2.2.1, h.2.1⟩

end HowThenWorks
